import Mathlib

/-!
Verification of the LS-DYNA preprocessing generators
(scripts/preprocess: fem_box_mesh.py, fem_sphere_generate.py,
sph_box_generate.py, sph_sphere_generate.py, sph_geo_generate.py).

Machine floats are idealised as exact rationals, except for the
cubed-sphere projection which uses real square roots.  Python loops with
a mutable counter are embedded as structurally recursive functions that
thread the counter; Python dicts keyed by the logical grid triple are
embedded as association lists built in iteration order.
-/

namespace LSDyna

/-- Embeds the Python pattern of iterating a list while incrementing an
integer ID counter: each visited item is paired with the current counter
value, which then advances by one (fem_box_mesh.py lines 76-89,
fem_sphere_generate.py lines 52-80). -/
def assignIds {α : Type} (start : ℤ) : List α → List (α × ℤ)
  | [] => []
  | a :: rest => (a, start) :: assignIds (start + 1) rest

/-- The triple loop X (outer) -> Y (middle) -> Z (inner) over the logical
grid, listing logical indices in visit order (Z varies fastest). -/
def gridIndices (nx ny nz : ℕ) : List (ℕ × ℕ × ℕ) :=
  (List.range nx).flatMap fun i =>
    (List.range ny).flatMap fun j =>
      (List.range nz).map fun k => (i, j, k)

/-- The node-ID map built by the node-generation loop: the association
list node_map of fem_box_mesh.py / the nodes dict of
fem_sphere_generate.py, keyed by (i, j, k) in visit order. -/
def femNodeAssign (start : ℤ) (nx ny nz : ℕ) : List ((ℕ × ℕ × ℕ) × ℤ) :=
  assignIds start (gridIndices nx ny nz)

/-- The closed-form node ID the spec gives for a logical index:
start + i*(ny*nz) + j*nz + k. -/
def femNodeIdF (start : ℤ) (nyN nzN : ℕ) (p : ℕ × ℕ × ℕ) : ℤ :=
  start + (p.1 * (nyN * nzN) + p.2.1 * nzN + p.2.2 : ℕ)

lemma assignIds_get? {α : Type} (l : List α) (start : ℤ) (n : ℕ) :
    (assignIds start l).get? n = (l.get? n).map (fun a => (a, start + n)) := by
  induction l generalizing start n with
  | nil => simp [assignIds]
  | cons a rest ih =>
    cases n with
    | zero => simp [assignIds]
    | succ m =>
      simp only [assignIds, List.get?_cons_succ]
      rw [ih]
      congr 1
      funext a
      simp only [Prod.mk.injEq, true_and]
      push_cast
      ring

lemma assignIds_length {α : Type} (l : List α) (start : ℤ) :
    (assignIds start l).length = l.length := by
  induction l generalizing start with
  | nil => rfl
  | cons a rest ih => simp [assignIds, ih]

lemma lookup_assignIds {α : Type} [BEq α] [LawfulBEq α] (l : List α) (start : ℤ)
    (a : α) (n : ℕ) (hnd : l.Nodup) (hget : l.get? n = some a) :
    (assignIds start l).lookup a = some (start + n) := by
  induction l generalizing start n with
  | nil => simp at hget
  | cons b rest ih =>
    rcases List.nodup_cons.mp hnd with ⟨hbr, hrest⟩
    cases n with
    | zero =>
      simp only [List.get?_cons_zero, Option.some.injEq] at hget
      subst hget
      simp [assignIds, List.lookup]
    | succ m =>
      simp only [List.get?_cons_succ] at hget
      have hmem : a ∈ rest := by
        rcases List.get?_eq_some.mp hget with ⟨h, hh⟩
        exact hh ▸ List.get_mem rest m h
      have hab : a ≠ b := fun h => hbr (h ▸ hmem)
      have hstep : (assignIds (start + 1) rest).lookup a = some (start + 1 + m) :=
        ih (start + 1) m hrest hget
      have hfalse : (a == b) = false := beq_eq_false_iff_ne.mpr hab
      simp only [assignIds, List.lookup, hfalse, hstep, Option.some.injEq]
      push_cast
      ring

lemma length_flatMap_const {α : Type} (f : ℕ → List α) (n B : ℕ)
    (hB : ∀ i < n, (f i).length = B) :
    ((List.range n).flatMap f).length = n * B := by
  induction n with
  | zero => simp
  | succ m ih =>
    rw [List.range_succ, List.flatMap_append, List.length_append,
      ih (fun i hi => hB i (Nat.lt_succ_of_lt hi))]
    simp [hB m (Nat.lt_succ_self m)]
    ring

lemma get?_flatMap_const {α : Type} (f : ℕ → List α) (n B i r : ℕ)
    (hB : ∀ t < n, (f t).length = B) (hi : i < n) (hr : r < B) :
    ((List.range n).flatMap f).get? (i * B + r) = (f i).get? r := by
  induction n with
  | zero => omega
  | succ m ih =>
    rw [List.range_succ, List.flatMap_append]
    have hlen : ((List.range m).flatMap f).length = m * B :=
      length_flatMap_const f m B (fun t ht => hB t (Nat.lt_succ_of_lt ht))
    rcases Nat.lt_or_ge i m with him | him
    · have hlt : i * B + r < m * B := by
        have h1 : i * B + r < (i + 1) * B := by
          simp [Nat.add_mul]
          omega
        have h2 : (i + 1) * B ≤ m * B := Nat.mul_le_mul_right B him
        omega
      rw [List.get?_append (by omega)]
      exact ih (fun t ht => hB t (Nat.lt_succ_of_lt ht)) him
    · have him' : i = m := by omega
      subst him'
      rw [List.get?_append_right (by omega)]
      simp [hlen]

lemma gridIndices_length (nx ny nz : ℕ) :
    (gridIndices nx ny nz).length = nx * (ny * nz) := by
  unfold gridIndices
  exact length_flatMap_const _ nx (ny * nz) (fun i _ =>
    length_flatMap_const _ ny nz (fun j _ => by simp))

lemma gridIndices_get? (nx ny nz i j k : ℕ)
    (hi : i < nx) (hj : j < ny) (hk : k < nz) :
    (gridIndices nx ny nz).get? (i * (ny * nz) + (j * nz + k)) = some (i, j, k) := by
  unfold gridIndices
  have hjk : j * nz + k < ny * nz := by
    have h1 : j * nz + k < (j + 1) * nz := by simp [Nat.add_mul]; omega
    have h2 : (j + 1) * nz ≤ ny * nz := Nat.mul_le_mul_right nz hj
    omega
  rw [get?_flatMap_const _ nx (ny * nz) i (j * nz + k)
    (fun t _ => length_flatMap_const _ ny nz (fun u _ => by simp)) hi hjk]
  rw [get?_flatMap_const _ ny nz j k (fun t _ => by simp) hj hk]
  simp [List.getElem?_range, hk]

lemma mem_gridIndices (nx ny nz : ℕ) (p : ℕ × ℕ × ℕ) :
    p ∈ gridIndices nx ny nz ↔ p.1 < nx ∧ p.2.1 < ny ∧ p.2.2 < nz := by
  obtain ⟨a, b, c⟩ := p
  simp only [gridIndices, List.mem_flatMap, List.mem_map, List.mem_range,
    Prod.mk.injEq]
  constructor
  · rintro ⟨i, hi, j, hj, k, hk, rfl, rfl, rfl⟩
    exact ⟨hi, hj, hk⟩
  · rintro ⟨ha, hb, hc⟩
    exact ⟨a, ha, b, hb, c, hc, rfl, rfl, rfl⟩

lemma gridBlock_nodup (m nz ny : ℕ) :
    ((List.range ny).flatMap fun j =>
      (List.range nz).map fun k => (m, j, k)).Nodup := by
  induction ny with
  | zero => simp
  | succ my ihy =>
    rw [List.range_succ, List.flatMap_append, List.nodup_append]
    refine ⟨ihy, ?_, ?_⟩
    · simp only [List.flatMap_cons, List.flatMap_nil, List.append_nil]
      refine List.Nodup.map ?_ (List.nodup_range nz)
      intro a b h
      simpa using h
    · intro p hp hp2
      simp only [List.flatMap_cons, List.flatMap_nil, List.append_nil,
        List.mem_flatMap, List.mem_map, List.mem_range, Prod.mk.injEq]
        at hp hp2
      rcases hp with ⟨j, hj, k, hk, rfl, rfl, rfl⟩
      rcases hp2 with ⟨k2, hk2, h1, h2, h3⟩
      omega

lemma gridIndices_nodup (nx ny nz : ℕ) : (gridIndices nx ny nz).Nodup := by
  induction nx with
  | zero => simp [gridIndices]
  | succ m ih =>
    unfold gridIndices at ih ⊢
    rw [List.range_succ, List.flatMap_append, List.nodup_append]
    refine ⟨ih, ?_, ?_⟩
    · simp only [List.flatMap_cons, List.flatMap_nil, List.append_nil]
      exact gridBlock_nodup m nz ny
    · intro p hp hp2
      simp only [List.flatMap_cons, List.flatMap_nil, List.append_nil,
        List.mem_flatMap, List.mem_map, List.mem_range, Prod.mk.injEq]
        at hp hp2
      rcases hp with ⟨i, hi, j, hj, k, hk, rfl, rfl, rfl⟩
      rcases hp2 with ⟨j2, hj2, k2, hk2, h1, h2, h3⟩
      omega

/-- Bridge between the loop-built node map and the closed-form ID. -/
lemma femNodeAssign_lookup (start : ℤ) (nx ny nz i j k : ℕ)
    (hi : i < nx) (hj : j < ny) (hk : k < nz) :
    (femNodeAssign start nx ny nz).lookup (i, j, k)
      = some (femNodeIdF start ny nz (i, j, k)) := by
  have := lookup_assignIds (gridIndices nx ny nz) start (i, j, k)
    (i * (ny * nz) + (j * nz + k)) (gridIndices_nodup nx ny nz)
    (gridIndices_get? nx ny nz i j k hi hj hk)
  rw [femNodeAssign, this, femNodeIdF]
  norm_num
  push_cast
  ring

/-- Uniqueness of the base-(ny*nz, nz) digit decomposition. -/
lemma euclid_pair (a a' r r' B : ℕ) (hr : r < B) (hr' : r' < B)
    (h : a * B + r = a' * B + r') : a = a' ∧ r = r' := by
  have hB : 0 < B := Nat.pos_of_ne_zero (by omega)
  have hmod : r % B = r' % B := by
    have h1 := Nat.mul_add_mod B a r
    have h2 := Nat.mul_add_mod B a' r'
    rw [Nat.mul_comm a B, Nat.mul_comm a' B] at h
    rw [← h1, ← h2, h]
  rw [Nat.mod_eq_of_lt hr, Nat.mod_eq_of_lt hr'] at hmod
  subst hmod
  refine ⟨Nat.eq_of_mul_eq_mul_right hB (by omega), rfl⟩

lemma femNodeIdF_inj (start : ℤ) (ny nz : ℕ) (p q : ℕ × ℕ × ℕ)
    (hp : p.2.1 < ny ∧ p.2.2 < nz) (hq : q.2.1 < ny ∧ q.2.2 < nz)
    (h : femNodeIdF start ny nz p = femNodeIdF start ny nz q) : p = q := by
  obtain ⟨a, b, c⟩ := p
  obtain ⟨a', b', c'⟩ := q
  simp only [femNodeIdF] at h
  have hnat : a * (ny * nz) + b * nz + c = a' * (ny * nz) + b' * nz + c' := by
    have := add_left_cancel h
    exact_mod_cast this
  simp only at hp hq
  have hbc : b * nz + c < ny * nz := by
    have h1 : b * nz + c < (b + 1) * nz := by simp [Nat.add_mul]; omega
    have h2 : (b + 1) * nz ≤ ny * nz := Nat.mul_le_mul_right nz hp.1
    omega
  have hbc' : b' * nz + c' < ny * nz := by
    have h1 : b' * nz + c' < (b' + 1) * nz := by simp [Nat.add_mul]; omega
    have h2 : (b' + 1) * nz ≤ ny * nz := Nat.mul_le_mul_right nz hq.1
    omega
  have h1 : a * (ny * nz) + (b * nz + c) = a' * (ny * nz) + (b' * nz + c') := by
    omega
  obtain ⟨ha, hrest⟩ := euclid_pair a a' (b * nz + c) (b' * nz + c') (ny * nz) hbc hbc' h1
  obtain ⟨hb, hc⟩ := euclid_pair b b' c c' nz hp.2 hq.2 hrest
  simp [ha, hb, hc]

/-- C1.  The node-ID assignment loop (X outermost, Y middle, Z innermost,
counter starting at start_nid) gives logical index (i,j,k) exactly the ID
start_nid + i*(ny_nodes*nz_nodes) + j*nz_nodes + k, and the mapping is
injective on the grid: distinct logical indices never share an ID. -/
theorem grid_indexer_id_formula_and_injective
    (start : ℤ) (nx ny nz i j k i' j' k' : ℕ)
    (hi : i < nx) (hj : j < ny) (hk : k < nz)
    (hi' : i' < nx) (hj' : j' < ny) (hk' : k' < nz) :
    (femNodeAssign start nx ny nz).lookup (i, j, k)
        = some (start + (i * (ny * nz) + j * nz + k : ℕ)) ∧
      (femNodeIdF start ny nz (i, j, k) = femNodeIdF start ny nz (i', j', k') →
        (i, j, k) = (i', j', k')) := by
  refine ⟨femNodeAssign_lookup start nx ny nz i j k hi hj hk, ?_⟩
  intro h
  exact femNodeIdF_inj start ny nz (i, j, k) (i', j', k') ⟨hj, hk⟩ ⟨hj', hk'⟩ h

/-- Witness for C1 on a concrete 2x3x4 node grid. -/
theorem grid_indexer_id_formula_and_injective_witness :
    (femNodeAssign 10 2 3 4).lookup (1, 2, 3)
        = some (10 + (1 * (3 * 4) + 2 * 4 + 3 : ℕ)) ∧
      (femNodeIdF 10 3 4 (1, 2, 3) = femNodeIdF 10 3 4 (1, 0, 0) →
        ((1, 2, 3) : ℕ × ℕ × ℕ) = (1, 0, 0)) :=
  grid_indexer_id_formula_and_injective 10 2 3 4 1 2 3 1 0 0
    (by decide) (by decide) (by decide) (by decide) (by decide) (by decide)

/-- One record of the keyword file, in structured form: a section marker,
a *NODE record, an *ELEMENT_SPH record, or an *ELEMENT_SOLID record. -/
inductive Line where
  | marker (s : String)
  | node (nid : ℤ) (x y z : ℚ)
  | esph (eid pid nid : ℤ) (mass : ℚ)
  | esolid (eid pid n1 n2 n3 n4 n5 n6 n7 n8 : ℤ)
deriving DecidableEq

/-- The 8 logical corner indices of grid cell (i,j,k), in the order the
element loop looks them up: bottom face p1..p4, then top face p5..p8
(fem_box_mesh.py lines 115-124, fem_sphere_generate.py lines 91-99). -/
def hexCorners (i j k : ℕ) : List (ℕ × ℕ × ℕ) :=
  [(i, j, k), (i + 1, j, k), (i + 1, j + 1, k), (i, j + 1, k),
   (i, j, k + 1), (i + 1, j, k + 1), (i + 1, j + 1, k + 1), (i, j + 1, k + 1)]

/-- The element emission for cell (i,j,k): look up the 8 corner node IDs
in the node map (a failed dict lookup is modelled as none) and emit the
*ELEMENT_SOLID record EID, PID, N1..N8. -/
def solidRecord (start : ℤ) (nxN nyN nzN : ℕ) (eid pid : ℤ)
    (i j k : ℕ) : Option Line :=
  match (femNodeAssign start nxN nyN nzN).lookup (i, j, k),
      (femNodeAssign start nxN nyN nzN).lookup (i + 1, j, k),
      (femNodeAssign start nxN nyN nzN).lookup (i + 1, j + 1, k),
      (femNodeAssign start nxN nyN nzN).lookup (i, j + 1, k),
      (femNodeAssign start nxN nyN nzN).lookup (i, j, k + 1),
      (femNodeAssign start nxN nyN nzN).lookup (i + 1, j, k + 1),
      (femNodeAssign start nxN nyN nzN).lookup (i + 1, j + 1, k + 1),
      (femNodeAssign start nxN nyN nzN).lookup (i, j + 1, k + 1) with
  | some a, some b, some c, some d, some e, some f, some g, some h =>
      some (.esolid eid pid a b c d e f g h)
  | _, _, _, _, _, _, _, _ => none

/-- Node IDs referenced by a record (the 8 corner references of a solid
element; other records reference no element corners). -/
def nodesOfLine : Line → List ℤ
  | .esolid _ _ a b c d e f g h => [a, b, c, d, e, f, g, h]
  | _ => []

lemma solidRecord_eq (start eid pid : ℤ) (nex ney nez i j k : ℕ)
    (hi : i < nex) (hj : j < ney) (hk : k < nez) :
    solidRecord start (nex + 1) (ney + 1) (nez + 1) eid pid i j k
      = some (.esolid eid pid
          (femNodeIdF start (ney + 1) (nez + 1) (i, j, k))
          (femNodeIdF start (ney + 1) (nez + 1) (i + 1, j, k))
          (femNodeIdF start (ney + 1) (nez + 1) (i + 1, j + 1, k))
          (femNodeIdF start (ney + 1) (nez + 1) (i, j + 1, k))
          (femNodeIdF start (ney + 1) (nez + 1) (i, j, k + 1))
          (femNodeIdF start (ney + 1) (nez + 1) (i + 1, j, k + 1))
          (femNodeIdF start (ney + 1) (nez + 1) (i + 1, j + 1, k + 1))
          (femNodeIdF start (ney + 1) (nez + 1) (i, j + 1, k + 1))) := by
  have l1 := femNodeAssign_lookup start (nex + 1) (ney + 1) (nez + 1) i j k
    (by omega) (by omega) (by omega)
  have l2 := femNodeAssign_lookup start (nex + 1) (ney + 1) (nez + 1) (i + 1) j k
    (by omega) (by omega) (by omega)
  have l3 := femNodeAssign_lookup start (nex + 1) (ney + 1) (nez + 1) (i + 1) (j + 1) k
    (by omega) (by omega) (by omega)
  have l4 := femNodeAssign_lookup start (nex + 1) (ney + 1) (nez + 1) i (j + 1) k
    (by omega) (by omega) (by omega)
  have l5 := femNodeAssign_lookup start (nex + 1) (ney + 1) (nez + 1) i j (k + 1)
    (by omega) (by omega) (by omega)
  have l6 := femNodeAssign_lookup start (nex + 1) (ney + 1) (nez + 1) (i + 1) j (k + 1)
    (by omega) (by omega) (by omega)
  have l7 := femNodeAssign_lookup start (nex + 1) (ney + 1) (nez + 1) (i + 1) (j + 1) (k + 1)
    (by omega) (by omega) (by omega)
  have l8 := femNodeAssign_lookup start (nex + 1) (ney + 1) (nez + 1) i (j + 1) (k + 1)
    (by omega) (by omega) (by omega)
  simp [solidRecord, l1, l2, l3, l4, l5, l6, l7, l8]

/-- C2.  For every in-range element cell (i,j,k) the emitted hex record
lists its 8 corner node IDs in exactly the order (i,j,k), (i+1,j,k),
(i+1,j+1,k), (i,j+1,k), then the same four with k+1, and every corner
stays within the node grid (each coordinate at most the per-axis element
count), so no lookup of a non-existent node occurs. -/
theorem hex_connectivity_order_and_bounds
    (start eid pid : ℤ) (nex ney nez i j k : ℕ)
    (hi : i < nex) (hj : j < ney) (hk : k < nez) :
    solidRecord start (nex + 1) (ney + 1) (nez + 1) eid pid i j k
        = some (.esolid eid pid
            (femNodeIdF start (ney + 1) (nez + 1) (i, j, k))
            (femNodeIdF start (ney + 1) (nez + 1) (i + 1, j, k))
            (femNodeIdF start (ney + 1) (nez + 1) (i + 1, j + 1, k))
            (femNodeIdF start (ney + 1) (nez + 1) (i, j + 1, k))
            (femNodeIdF start (ney + 1) (nez + 1) (i, j, k + 1))
            (femNodeIdF start (ney + 1) (nez + 1) (i + 1, j, k + 1))
            (femNodeIdF start (ney + 1) (nez + 1) (i + 1, j + 1, k + 1))
            (femNodeIdF start (ney + 1) (nez + 1) (i, j + 1, k + 1))) ∧
      ∀ p ∈ hexCorners i j k, p.1 ≤ nex ∧ p.2.1 ≤ ney ∧ p.2.2 ≤ nez := by
  refine ⟨solidRecord_eq start eid pid nex ney nez i j k hi hj hk, ?_⟩
  intro p hp
  simp only [hexCorners, List.mem_cons, List.not_mem_nil, or_false] at hp
  rcases hp with rfl | rfl | rfl | rfl | rfl | rfl | rfl | rfl <;>
    refine ⟨?_, ?_, ?_⟩ <;> dsimp only <;> omega

/-- Witness for C2 on a concrete 2x2x2-element grid cell. -/
theorem hex_connectivity_order_and_bounds_witness :
    (solidRecord 1 (2 + 1) (2 + 1) (2 + 1) 7 9 1 0 1
        = some (.esolid 7 9
            (femNodeIdF 1 (2 + 1) (2 + 1) (1, 0, 1))
            (femNodeIdF 1 (2 + 1) (2 + 1) (1 + 1, 0, 1))
            (femNodeIdF 1 (2 + 1) (2 + 1) (1 + 1, 0 + 1, 1))
            (femNodeIdF 1 (2 + 1) (2 + 1) (1, 0 + 1, 1))
            (femNodeIdF 1 (2 + 1) (2 + 1) (1, 0, 1 + 1))
            (femNodeIdF 1 (2 + 1) (2 + 1) (1 + 1, 0, 1 + 1))
            (femNodeIdF 1 (2 + 1) (2 + 1) (1 + 1, 0 + 1, 1 + 1))
            (femNodeIdF 1 (2 + 1) (2 + 1) (1, 0 + 1, 1 + 1))) ∧
      ∀ p ∈ hexCorners 1 0 1, p.1 ≤ 2 ∧ p.2.1 ≤ 2 ∧ p.2.2 ≤ 2) :=
  hex_connectivity_order_and_bounds 1 7 9 2 2 2 1 0 1
    (by decide) (by decide) (by decide)

lemma hexCorners_nodup (i j k : ℕ) : (hexCorners i j k).Nodup := by
  simp [hexCorners, List.nodup_cons, Prod.mk.injEq]

lemma femNodeIdF_pos_lt (nxN nyN nzN a b c : ℕ)
    (ha : a < nxN) (hb : b < nyN) (hc : c < nzN) :
    a * (nyN * nzN) + b * nzN + c < nxN * (nyN * nzN) := by
  have h1 : b * nzN + c < nyN * nzN := by
    have h2 : b * nzN + c < (b + 1) * nzN := by simp [Nat.add_mul]; omega
    have h3 : (b + 1) * nzN ≤ nyN * nzN := Nat.mul_le_mul_right nzN hb
    omega
  have h4 : (a + 1) * (nyN * nzN) ≤ nxN * (nyN * nzN) :=
    Nat.mul_le_mul_right (nyN * nzN) ha
  have h5 : a * (nyN * nzN) + (nyN * nzN) = (a + 1) * (nyN * nzN) := by ring
  omega

/-- C7.  Every emitted FEM hex element references 8 pairwise distinct node
IDs, all inside the region's declared node-ID range
[start_nid, start_nid + total node count). -/
theorem fem_element_ids_distinct_and_in_range
    (start eid pid : ℤ) (nex ney nez i j k : ℕ)
    (hi : i < nex) (hj : j < ney) (hk : k < nez) :
    ∃ rec, solidRecord start (nex + 1) (ney + 1) (nez + 1) eid pid i j k
        = some rec ∧
      (nodesOfLine rec).Nodup ∧
      ∀ n ∈ nodesOfLine rec,
        start ≤ n ∧ n < start + ((nex + 1) * (ney + 1) * (nez + 1) : ℕ) := by
  refine ⟨_, solidRecord_eq start eid pid nex ney nez i j k hi hj hk, ?_, ?_⟩
  · have hmap : (nodesOfLine (.esolid eid pid
        (femNodeIdF start (ney + 1) (nez + 1) (i, j, k))
        (femNodeIdF start (ney + 1) (nez + 1) (i + 1, j, k))
        (femNodeIdF start (ney + 1) (nez + 1) (i + 1, j + 1, k))
        (femNodeIdF start (ney + 1) (nez + 1) (i, j + 1, k))
        (femNodeIdF start (ney + 1) (nez + 1) (i, j, k + 1))
        (femNodeIdF start (ney + 1) (nez + 1) (i + 1, j, k + 1))
        (femNodeIdF start (ney + 1) (nez + 1) (i + 1, j + 1, k + 1))
        (femNodeIdF start (ney + 1) (nez + 1) (i, j + 1, k + 1))))
        = (hexCorners i j k).map (femNodeIdF start (ney + 1) (nez + 1)) := by
      simp [nodesOfLine, hexCorners]
    rw [hmap]
    refine List.Nodup.map_on ?_ (hexCorners_nodup i j k)
    intro p hp q hq hpq
    have hpb := (hex_connectivity_order_and_bounds start eid pid nex ney nez
      i j k hi hj hk).2 p hp
    have hqb := (hex_connectivity_order_and_bounds start eid pid nex ney nez
      i j k hi hj hk).2 q hq
    exact femNodeIdF_inj start (ney + 1) (nez + 1) p q
      ⟨by omega, by omega⟩ ⟨by omega, by omega⟩ hpq
  · intro n hn
    simp only [nodesOfLine, List.mem_cons, List.not_mem_nil, or_false] at hn
    have key : ∀ a b c : ℕ, a ≤ nex → b ≤ ney → c ≤ nez →
        start ≤ femNodeIdF start (ney + 1) (nez + 1) (a, b, c) ∧
          femNodeIdF start (ney + 1) (nez + 1) (a, b, c)
            < start + ((nex + 1) * (ney + 1) * (nez + 1) : ℕ) := by
      intro a b c ha hb hc
      constructor
      · simp only [femNodeIdF, le_add_iff_nonneg_right]
        positivity
      · have hlt := femNodeIdF_pos_lt (nex + 1) (ney + 1) (nez + 1) a b c
          (by omega) (by omega) (by omega)
        simp only [femNodeIdF]
        have : ((a * ((ney + 1) * (nez + 1)) + b * (nez + 1) + c : ℕ) : ℤ)
            < (((nex + 1) * ((ney + 1) * (nez + 1)) : ℕ) : ℤ) := by
          exact_mod_cast hlt
        have hassoc : (nex + 1) * ((ney + 1) * (nez + 1))
            = (nex + 1) * (ney + 1) * (nez + 1) := by ring
        rw [hassoc] at this
        omega
    rcases hn with rfl | rfl | rfl | rfl | rfl | rfl | rfl | rfl <;>
      exact key _ _ _ (by omega) (by omega) (by omega)

/-- Witness for C7 at a concrete cell of a 1x1x1-element grid. -/
theorem fem_element_ids_distinct_and_in_range_witness :
    ∃ rec, solidRecord 100 (1 + 1) (1 + 1) (1 + 1) 5 6 0 0 0
        = some rec ∧
      (nodesOfLine rec).Nodup ∧
      ∀ n ∈ nodesOfLine rec,
        100 ≤ n ∧ n < 100 + ((1 + 1) * (1 + 1) * (1 + 1) : ℕ) :=
  fem_element_ids_distinct_and_in_range 100 5 6 1 1 1 0 0 0
    (by decide) (by decide) (by decide)

lemma flatMap_congr_mem {α β : Type} (l : List α) (f g : α → List β)
    (h : ∀ a ∈ l, f a = g a) : l.flatMap f = l.flatMap g := by
  induction l with
  | nil => rfl
  | cons a rest ih =>
    simp only [List.flatMap_cons]
    rw [h a (List.mem_cons_self a rest),
      ih (fun b hb => h b (List.mem_cons_of_mem a hb))]

lemma flatMap_eq_nil_of {α β : Type} (l : List α) (f : α → List β)
    (h : ∀ a ∈ l, f a = []) : l.flatMap f = [] := by
  induction l with
  | nil => rfl
  | cons a rest ih =>
    simp only [List.flatMap_cons]
    rw [h a (List.mem_cons_self a rest),
      ih (fun b hb => h b (List.mem_cons_of_mem a hb))]
    rfl

lemma filterMap_eq_nil_of {α β : Type} (l : List α) (f : α → Option β)
    (h : ∀ a ∈ l, f a = none) : l.filterMap f = [] := by
  induction l with
  | nil => rfl
  | cons a rest ih =>
    rw [List.filterMap_cons, h a (List.mem_cons_self a rest),
      ih (fun b hb => h b (List.mem_cons_of_mem a hb))]

/-- The sphere SPH sampling loop with its two early-rejection continue
statements, embedded from generate_sph_sphere (sph_sphere_generate.py
lines 71-90); calculate_sphere_particles of sph_geo_generate.py lines
107-120 contains the textually identical loop.  The bounding cube spans
2*radius per axis from (cx-r, cy-r, cz-r); cell centres sit at
min + (index + 0.5) * spacing.  Python raises ZeroDivisionError on a zero
grid count; the embedding is only quoted under positive counts. -/
def sphSphereCoords (cx cy cz r : ℚ) (nx ny nz : ℕ) : List (ℚ × ℚ × ℚ) :=
  (List.range nx).flatMap fun i =>
    if |(cx - r + (i + 1/2) * (2 * r / nx)) - cx| > r then [] else
      (List.range ny).flatMap fun j =>
        if ((cx - r + (i + 1/2) * (2 * r / nx)) - cx) ^ 2
            + ((cy - r + (j + 1/2) * (2 * r / ny)) - cy) ^ 2 > r ^ 2 then []
        else
          (List.range nz).filterMap fun k =>
            if ((cx - r + (i + 1/2) * (2 * r / nx)) - cx) ^ 2
                + ((cy - r + (j + 1/2) * (2 * r / ny)) - cy) ^ 2
                + ((cz - r + (k + 1/2) * (2 * r / nz)) - cz) ^ 2 ≤ r ^ 2 then
              some (cx - r + (i + 1/2) * (2 * r / nx),
                cy - r + (j + 1/2) * (2 * r / ny),
                cz - r + (k + 1/2) * (2 * r / nz))
            else none

/-- Modelled from the spec (reference semantics for the refinement claim):
the naive loop that visits every cell centre of the bounding cube in the
same Z-fastest order and keeps a point iff its squared distance to the
centre is at most radius squared, with no early rejection. -/
def sphSphereNaiveCoords (cx cy cz r : ℚ) (nx ny nz : ℕ) : List (ℚ × ℚ × ℚ) :=
  (List.range nx).flatMap fun i =>
    (List.range ny).flatMap fun j =>
      (List.range nz).filterMap fun k =>
        if ((cx - r + (i + 1/2) * (2 * r / nx)) - cx) ^ 2
            + ((cy - r + (j + 1/2) * (2 * r / ny)) - cy) ^ 2
            + ((cz - r + (k + 1/2) * (2 * r / nz)) - cz) ^ 2 ≤ r ^ 2 then
          some (cx - r + (i + 1/2) * (2 * r / nx),
            cy - r + (j + 1/2) * (2 * r / ny),
            cz - r + (k + 1/2) * (2 * r / nz))
        else none

/-- C3.  For a positive radius, the generation loop with its per-X-slice
and per-XY-column early-rejection continues produces exactly the list the
naive full-grid loop produces: same members, same Z-fastest order. -/
theorem sphere_early_rejection_equiv (cx cy cz r : ℚ) (nx ny nz : ℕ)
    (hr : 0 < r) :
    sphSphereCoords cx cy cz r nx ny nz
      = sphSphereNaiveCoords cx cy cz r nx ny nz := by
  unfold sphSphereCoords sphSphereNaiveCoords
  refine flatMap_congr_mem _ _ _ ?_
  intro i _
  by_cases h1 : |(cx - r + (i + 1/2) * (2 * r / nx)) - cx| > r
  · rw [if_pos h1]
    have hx2 : r ^ 2 < ((cx - r + (i + 1/2) * (2 * r / nx)) - cx) ^ 2 := by
      have habs := pow_lt_pow_left h1 (le_of_lt hr) two_ne_zero
      rwa [sq_abs] at habs
    symm
    refine flatMap_eq_nil_of _ _ ?_
    intro j _
    refine filterMap_eq_nil_of _ _ ?_
    intro k _
    rw [if_neg]
    intro hle
    nlinarith [sq_nonneg ((cy - r + (j + 1/2) * (2 * r / ny)) - cy),
      sq_nonneg ((cz - r + (k + 1/2) * (2 * r / nz)) - cz)]
  · rw [if_neg h1]
    refine flatMap_congr_mem _ _ _ ?_
    intro j _
    by_cases h2 : ((cx - r + (i + 1/2) * (2 * r / nx)) - cx) ^ 2
        + ((cy - r + (j + 1/2) * (2 * r / ny)) - cy) ^ 2 > r ^ 2
    · rw [if_pos h2]
      symm
      refine filterMap_eq_nil_of _ _ ?_
      intro k _
      rw [if_neg]
      intro hle
      nlinarith [sq_nonneg ((cz - r + (k + 1/2) * (2 * r / nz)) - cz)]
    · rw [if_neg h2]

/-- Witness for C3 at the sphere configuration of the repository scripts
scaled to a 3x3x3 grid. -/
theorem sphere_early_rejection_equiv_witness :
    (0 : ℚ) < 1/4 ∧
      sphSphereCoords 0 0 (251/1000) (1/4) 3 3 3
        = sphSphereNaiveCoords 0 0 (251/1000) (1/4) 3 3 3 :=
  ⟨by norm_num, sphere_early_rejection_equiv 0 0 (251/1000) (1/4) 3 3 3 (by norm_num)⟩

/-- Python range over a Python int: empty when the bound is not positive. -/
def pyRange (n : ℤ) : List ℤ :=
  (List.range n.toNat).map Int.ofNat

/-- Python float division, which raises ZeroDivisionError on a zero
divisor. -/
def pyDiv (a b : ℚ) : Except String ℚ :=
  if b = 0 then .error "ZeroDivisionError" else .ok (a / b)

/-- The *NODE writing loop: one record per buffered coordinate, with the
node-ID counter starting at start_nid and incrementing per record. -/
def nodeLines (nid : ℤ) : List (ℚ × ℚ × ℚ) → List Line
  | [] => []
  | c :: rest => .node nid c.1 c.2.1 c.2.2 :: nodeLines (nid + 1) rest

/-- The *ELEMENT_SPH writing loop: one record per particle, with the
element-ID and node-ID counters starting at the configured offsets and
incrementing together; every record carries the same part ID and mass. -/
def esphLoop {α : Type} (eid nid pid : ℤ) (mass : ℚ) : List α → List Line
  | [] => []
  | _ :: rest => .esph eid pid nid mass :: esphLoop (eid + 1) (nid + 1) pid mass rest

/-- generate_sph_box of sph_box_generate.py: spacing from the extents and
per-axis particle counts, uniform particle mass density*dx*dy*dz, node
records in X->Y->Z (Z-fastest) order, then one *ELEMENT_SPH record per
particle.  The three divisions happen before the output file is opened, so
a zero count raises before any output; every other configuration produces
the complete document. -/
def sphBoxDoc (xmin ymin zmin dx dy dz : ℚ) (numx numy numz : ℤ)
    (density : ℚ) (start_nid start_eid part_id : ℤ) : List Line :=
  [Line.marker "*KEYWORD", Line.marker "*NODE"]
    ++ nodeLines start_nid
        ((pyRange numx).flatMap fun i =>
          (pyRange numy).flatMap fun j =>
            (pyRange numz).map fun k =>
              (xmin + (i + 1/2) * dx, ymin + (j + 1/2) * dy,
                zmin + (k + 1/2) * dz))
    ++ [Line.marker "*ELEMENT_SPH"]
    ++ esphLoop start_eid start_nid part_id (density * (dx * dy * dz))
        (pyRange (numx * numy * numz))
    ++ [Line.marker "*END"]

def generate_sph_box (xmin xmax ymin ymax zmin zmax : ℚ)
    (numx numy numz : ℤ) (density : ℚ)
    (start_nid start_eid part_id : ℤ) : Except String (List Line) :=
  match pyDiv (xmax - xmin) numx, pyDiv (ymax - ymin) numy,
      pyDiv (zmax - zmin) numz with
  | .ok dx, .ok dy, .ok dz =>
    .ok (sphBoxDoc xmin ymin zmin dx dy dz numx numy numz density
      start_nid start_eid part_id)
  | .error e, _, _ => .error e
  | _, .error e, _ => .error e
  | _, _, .error e => .error e

/-- Mass field of an *ELEMENT_SPH record. -/
def massOfLine : Line → Option ℚ
  | .esph _ _ _ m => some m
  | _ => none

lemma filterMap_massOfLine_nodeLines (nid : ℤ) (l : List (ℚ × ℚ × ℚ)) :
    (nodeLines nid l).filterMap massOfLine = [] := by
  induction l generalizing nid with
  | nil => rfl
  | cons c rest ih =>
    rw [nodeLines, List.filterMap_cons]
    exact ih (nid + 1)

lemma filterMap_massOfLine_esphLoop {α : Type} (eid nid pid : ℤ) (mass : ℚ)
    (l : List α) :
    (esphLoop eid nid pid mass l).filterMap massOfLine
      = List.replicate l.length mass := by
  induction l generalizing eid nid with
  | nil => rfl
  | cons a rest ih =>
    rw [esphLoop, List.filterMap_cons]
    simp only [massOfLine, List.length_cons, List.replicate_succ]
    rw [ih (eid + 1) (nid + 1)]

lemma pyRange_length (n : ℤ) : (pyRange n).length = n.toNat := by
  simp [pyRange]

lemma generate_sph_box_ok (xmin xmax ymin ymax zmin zmax : ℚ)
    (numx numy numz : ℤ) (density : ℚ) (start_nid start_eid part_id : ℤ)
    (hx0 : (numx : ℚ) ≠ 0) (hy0 : (numy : ℚ) ≠ 0) (hz0 : (numz : ℚ) ≠ 0) :
    generate_sph_box xmin xmax ymin ymax zmin zmax numx numy numz
        density start_nid start_eid part_id
      = .ok (sphBoxDoc xmin ymin zmin ((xmax - xmin) / numx)
          ((ymax - ymin) / numy) ((zmax - zmin) / numz) numx numy numz
          density start_nid start_eid part_id) := by
  have h1 : pyDiv (xmax - xmin) (numx : ℚ) = .ok ((xmax - xmin) / numx) := by
    simp [pyDiv, hx0]
  have h2 : pyDiv (ymax - ymin) (numy : ℚ) = .ok ((ymax - ymin) / numy) := by
    simp [pyDiv, hy0]
  have h3 : pyDiv (zmax - zmin) (numz : ℚ) = .ok ((zmax - zmin) / numz) := by
    simp [pyDiv, hz0]
  unfold generate_sph_box
  rw [h1, h2, h3]

/-- C4.  For a box SPH region with positive per-axis counts and proper
extents, the emitted *ELEMENT_SPH records all carry the identical mass
density*dx*dy*dz, there are exactly nx*ny*nz of them, and their masses sum
to exactly density times the box volume, independent of resolution. -/
theorem sph_box_mass_conservation (xmin xmax ymin ymax zmin zmax : ℚ)
    (numx numy numz : ℤ) (density : ℚ) (start_nid start_eid part_id : ℤ)
    (hx : 0 < numx) (hy : 0 < numy) (hz : 0 < numz)
    (hex : xmin < xmax) (hey : ymin < ymax) (hez : zmin < zmax) :
    ∃ doc, generate_sph_box xmin xmax ymin ymax zmin zmax numx numy numz
          density start_nid start_eid part_id = .ok doc ∧
      doc.filterMap massOfLine
          = List.replicate (numx * numy * numz).toNat
              (density * ((xmax - xmin) / numx * ((ymax - ymin) / numy)
                * ((zmax - zmin) / numz))) ∧
      (doc.filterMap massOfLine).sum
          = density * ((xmax - xmin) * (ymax - ymin) * (zmax - zmin)) := by
  have hx0 : (numx : ℚ) ≠ 0 := by exact_mod_cast hx.ne'
  have hy0 : (numy : ℚ) ≠ 0 := by exact_mod_cast hy.ne'
  have hz0 : (numz : ℚ) ≠ 0 := by exact_mod_cast hz.ne'
  have hok := generate_sph_box_ok xmin xmax ymin ymax zmin zmax numx numy
    numz density start_nid start_eid part_id hx0 hy0 hz0
  have hmass : (sphBoxDoc xmin ymin zmin ((xmax - xmin) / numx)
        ((ymax - ymin) / numy) ((zmax - zmin) / numz) numx numy numz
        density start_nid start_eid part_id).filterMap massOfLine
      = List.replicate (numx * numy * numz).toNat
          (density * ((xmax - xmin) / numx * ((ymax - ymin) / numy)
            * ((zmax - zmin) / numz))) := by
    unfold sphBoxDoc
    rw [List.filterMap_append, List.filterMap_append, List.filterMap_append,
      List.filterMap_append, filterMap_massOfLine_nodeLines,
      filterMap_massOfLine_esphLoop]
    simp [massOfLine, pyRange_length, mul_assoc]
  refine ⟨_, hok, hmass, ?_⟩
  rw [hmass, List.sum_replicate, nsmul_eq_mul]
  have hcast : (((numx * numy * numz).toNat : ℚ))
      = ((numx : ℚ) * numy * numz) := by
    have hnn : (0 : ℤ) ≤ numx * numy * numz := by positivity
    have ht := Int.toNat_of_nonneg hnn
    exact_mod_cast congrArg (fun t : ℤ => (t : ℚ)) ht
  rw [hcast]
  field_simp

/-- Witness for C4 at a unit box with a 2x3x1 resolution. -/
theorem sph_box_mass_conservation_witness :
    ∃ doc, generate_sph_box 0 1 0 1 0 1 2 3 1 2 11 13 17 = .ok doc ∧
      doc.filterMap massOfLine
          = List.replicate ((2 * 3 * 1 : ℤ)).toNat
              ((2 : ℚ) * ((1 - 0) / ((2 : ℤ) : ℚ) * ((1 - 0) / ((3 : ℤ) : ℚ))
                * ((1 - 0) / ((1 : ℤ) : ℚ)))) ∧
      (doc.filterMap massOfLine).sum
          = (2 : ℚ) * ((1 - 0) * (1 - 0) * (1 - 0)) :=
  sph_box_mass_conservation 0 1 0 1 0 1 2 3 1 2 11 13 17 (by norm_num)
    (by norm_num) (by norm_num) (by norm_num) (by norm_num) (by norm_num)

/-- The cubed-sphere mapping of fem_sphere_generate.py lines 65-67: maps a
point of the cube [-1,1]^3 into the unit ball while controlling element
distortion. -/
noncomputable def cubedSphere (u v w : ℝ) : ℝ × ℝ × ℝ :=
  (u * Real.sqrt (1 - v ^ 2 / 2 - w ^ 2 / 2 + v ^ 2 * w ^ 2 / 3),
   v * Real.sqrt (1 - u ^ 2 / 2 - w ^ 2 / 2 + u ^ 2 * w ^ 2 / 3),
   w * Real.sqrt (1 - u ^ 2 / 2 - v ^ 2 / 2 + u ^ 2 * v ^ 2 / 3))

lemma cubedSphere_normSq (u v w : ℝ)
    (h1 : 0 ≤ 1 - v ^ 2 / 2 - w ^ 2 / 2 + v ^ 2 * w ^ 2 / 3)
    (h2 : 0 ≤ 1 - u ^ 2 / 2 - w ^ 2 / 2 + u ^ 2 * w ^ 2 / 3)
    (h3 : 0 ≤ 1 - u ^ 2 / 2 - v ^ 2 / 2 + u ^ 2 * v ^ 2 / 3) :
    (cubedSphere u v w).1 ^ 2 + (cubedSphere u v w).2.1 ^ 2
        + (cubedSphere u v w).2.2 ^ 2
      = u ^ 2 + v ^ 2 + w ^ 2
        - (u ^ 2 * v ^ 2 + u ^ 2 * w ^ 2 + v ^ 2 * w ^ 2)
        + u ^ 2 * v ^ 2 * w ^ 2 := by
  simp only [cubedSphere]
  rw [mul_pow, mul_pow, mul_pow, Real.sq_sqrt h1, Real.sq_sqrt h2,
    Real.sq_sqrt h3]
  ring

/-- C5.  For u, v, w each in {-1, 0, 1} with at least one equal to plus or
minus 1, the cubed-sphere image lies at Euclidean distance exactly 1 from
the origin. -/
theorem cubed_sphere_surface_unit_distance (u v w : ℝ)
    (hu : u = -1 ∨ u = 0 ∨ u = 1) (hv : v = -1 ∨ v = 0 ∨ v = 1)
    (hw : w = -1 ∨ w = 0 ∨ w = 1) (hne : u ≠ 0 ∨ v ≠ 0 ∨ w ≠ 0) :
    Real.sqrt ((cubedSphere u v w).1 ^ 2 + (cubedSphere u v w).2.1 ^ 2
      + (cubedSphere u v w).2.2 ^ 2) = 1 := by
  have key : (cubedSphere u v w).1 ^ 2 + (cubedSphere u v w).2.1 ^ 2
      + (cubedSphere u v w).2.2 ^ 2 = 1 := by
    rcases hu with rfl | rfl | rfl <;> rcases hv with rfl | rfl | rfl <;>
      rcases hw with rfl | rfl | rfl <;>
      first
        | (rw [cubedSphere_normSq _ _ _ (by norm_num) (by norm_num)
            (by norm_num)]; norm_num; done)
        | (rcases hne with h | h | h <;> exact absurd rfl h)
  rw [key, Real.sqrt_one]

/-- Witness for C5 at the edge midpoint direction u = 1, v = 1, w = 0. -/
theorem cubed_sphere_surface_unit_distance_witness :
    Real.sqrt ((cubedSphere 1 1 0).1 ^ 2 + (cubedSphere 1 1 0).2.1 ^ 2
      + (cubedSphere 1 1 0).2.2 ^ 2) = 1 :=
  cubed_sphere_surface_unit_distance 1 1 0 (by norm_num) (by norm_num)
    (by norm_num) (by norm_num)

/-- The node coordinate computed by generate_hex_sphere for logical index
(i, j, k): normalise to u = (i - N)/N and likewise for v, w, apply the
cubed-sphere mapping, scale by the radius and shift to the centre
(fem_sphere_generate.py lines 57-72 and, identically, lines 121-131). -/
noncomputable def femSphereCoord (cx cy cz radius : ℝ) (N : ℕ)
    (p : ℕ × ℕ × ℕ) : ℝ × ℝ × ℝ :=
  (cx + (cubedSphere (((p.1 : ℝ) - N) / N) (((p.2.1 : ℝ) - N) / N)
      (((p.2.2 : ℝ) - N) / N)).1 * radius,
   cy + (cubedSphere (((p.1 : ℝ) - N) / N) (((p.2.1 : ℝ) - N) / N)
      (((p.2.2 : ℝ) - N) / N)).2.1 * radius,
   cz + (cubedSphere (((p.1 : ℝ) - N) / N) (((p.2.1 : ℝ) - N) / N)
      (((p.2.2 : ℝ) - N) / N)).2.2 * radius)

/-- The write-time pass of generate_hex_sphere (lines 117-134): re-iterate
the full logical grid in the same order with a fresh counter starting at
start_nid and recompute each coordinate, emitting the (node ID, position)
records actually written to the *NODE section. -/
noncomputable def femSphereWritePass (cx cy cz radius : ℝ) (N : ℕ)
    (start : ℤ) : List (ℤ × (ℝ × ℝ × ℝ)) :=
  (assignIds start (gridIndices (2 * N + 1) (2 * N + 1) (2 * N + 1))).map
    fun pn => (pn.2, femSphereCoord cx cy cz radius N pn.1)

lemma femSphereWritePass_get? (cx cy cz radius : ℝ) (N : ℕ) (start : ℤ)
    (i j k : ℕ) (hi : i < 2 * N + 1) (hj : j < 2 * N + 1)
    (hk : k < 2 * N + 1) :
    (femSphereWritePass cx cy cz radius N start).get?
        (i * ((2 * N + 1) * (2 * N + 1)) + (j * (2 * N + 1) + k))
      = some (femNodeIdF start (2 * N + 1) (2 * N + 1) (i, j, k),
          femSphereCoord cx cy cz radius N (i, j, k)) := by
  have hid : start + ((i * ((2 * N + 1) * (2 * N + 1))
        + (j * (2 * N + 1) + k) : ℕ) : ℤ)
      = femNodeIdF start (2 * N + 1) (2 * N + 1) (i, j, k) := by
    simp only [femNodeIdF]
    push_cast
    ring
  unfold femSphereWritePass
  rw [List.get?_map, assignIds_get?,
    gridIndices_get? (2 * N + 1) (2 * N + 1) (2 * N + 1) i j k hi hj hk, hid]
  simp

/-- C10.  The write-time pass of the FEM sphere generator reproduces the
first pass exactly: the ID written at the grid position of (i,j,k) equals
the ID stored in the connectivity map for (i,j,k), the written coordinates
are the sampler value at that index, and every node reference of an
emitted element resolves to an ID that appears in the written *NODE
records. -/
theorem fem_sphere_two_pass_consistency (cx cy cz radius : ℝ) (N : ℕ)
    (start eid pid : ℤ) (i j k : ℕ)
    (hi : i < 2 * N + 1) (hj : j < 2 * N + 1) (hk : k < 2 * N + 1) :
    (femNodeAssign start (2 * N + 1) (2 * N + 1) (2 * N + 1)).lookup (i, j, k)
        = some (femNodeIdF start (2 * N + 1) (2 * N + 1) (i, j, k)) ∧
      (femSphereWritePass cx cy cz radius N start).get?
          (i * ((2 * N + 1) * (2 * N + 1)) + (j * (2 * N + 1) + k))
        = some (femNodeIdF start (2 * N + 1) (2 * N + 1) (i, j, k),
            femSphereCoord cx cy cz radius N (i, j, k)) ∧
      ∀ rec, i < 2 * N → j < 2 * N → k < 2 * N →
        solidRecord start (2 * N + 1) (2 * N + 1) (2 * N + 1) eid pid i j k
          = some rec →
        ∀ n ∈ nodesOfLine rec,
          n ∈ (femSphereWritePass cx cy cz radius N start).map Prod.fst := by
  refine ⟨femNodeAssign_lookup start (2 * N + 1) (2 * N + 1) (2 * N + 1) i j k
      hi hj hk,
    femSphereWritePass_get? cx cy cz radius N start i j k hi hj hk, ?_⟩
  intro rec hie hje hke hrec
  rw [solidRecord_eq start eid pid (2 * N) (2 * N) (2 * N) i j k hie hje hke]
    at hrec
  injection hrec with hrec
  subst hrec
  intro n hn
  have key : ∀ a b c : ℕ, a < 2 * N + 1 → b < 2 * N + 1 → c < 2 * N + 1 →
      femNodeIdF start (2 * N + 1) (2 * N + 1) (a, b, c)
        ∈ (femSphereWritePass cx cy cz radius N start).map Prod.fst := by
    intro a b c ha hb hc
    have hg := femSphereWritePass_get? cx cy cz radius N start a b c ha hb hc
    have hmapped : ((femSphereWritePass cx cy cz radius N start).map
          Prod.fst).get? (a * ((2 * N + 1) * (2 * N + 1)) + (b * (2 * N + 1) + c))
        = some (femNodeIdF start (2 * N + 1) (2 * N + 1) (a, b, c)) := by
      rw [List.get?_map, hg]
      rfl
    rcases List.get?_eq_some.mp hmapped with ⟨hlt, hget⟩
    exact hget ▸ List.get_mem _ _ hlt
  simp only [nodesOfLine, List.mem_cons, List.not_mem_nil, or_false] at hn
  rcases hn with rfl | rfl | rfl | rfl | rfl | rfl | rfl | rfl <;>
    exact key _ _ _ (by omega) (by omega) (by omega)

/-- Witness for C10 with density N = 1 at the centre node of the grid. -/
theorem fem_sphere_two_pass_consistency_witness :
    (femNodeAssign 1 (2 * 1 + 1) (2 * 1 + 1) (2 * 1 + 1)).lookup (1, 1, 1)
        = some (femNodeIdF 1 (2 * 1 + 1) (2 * 1 + 1) (1, 1, 1)) ∧
      (femSphereWritePass 0 0 (251/1000) (1/4) 1 1).get?
          (1 * ((2 * 1 + 1) * (2 * 1 + 1)) + (1 * (2 * 1 + 1) + 1))
        = some (femNodeIdF 1 (2 * 1 + 1) (2 * 1 + 1) (1, 1, 1),
            femSphereCoord 0 0 (251/1000) (1/4) 1 (1, 1, 1)) ∧
      ∀ rec, 1 < 2 * 1 → 1 < 2 * 1 → 1 < 2 * 1 →
        solidRecord 1 (2 * 1 + 1) (2 * 1 + 1) (2 * 1 + 1) 1 1 1 1 1
          = some rec →
        ∀ n ∈ nodesOfLine rec,
          n ∈ (femSphereWritePass 0 0 (251/1000) (1/4) 1 1).map Prod.fst :=
  fem_sphere_two_pass_consistency 0 0 (251/1000) (1/4) 1 1 1 1 1 1 1
    (by decide) (by decide) (by decide)

/-- Box region configuration of sph_geo_generate.py (box_cfg): extents,
per-axis particle counts, density, part ID and starting node/element IDs.
Fields follow the dict keys in declaration order. -/
structure BoxCfg where
  enable : Bool
  x_min : ℚ
  x_max : ℚ
  y_min : ℚ
  y_max : ℚ
  z_min : ℚ
  z_max : ℚ
  num_x : ℕ
  num_y : ℕ
  num_z : ℕ
  density : ℚ
  part_id : ℤ
  start_nid : ℤ
  start_eid : ℤ
deriving DecidableEq

/-- Sphere region configuration of sph_geo_generate.py (sphere_cfg). -/
structure SphereCfg where
  enable : Bool
  cx : ℚ
  cy : ℚ
  cz : ℚ
  radius : ℚ
  num_x : ℕ
  num_y : ℕ
  num_z : ℕ
  density : ℚ
  part_id : ℤ
  start_nid : ℤ
  start_eid : ℤ
deriving DecidableEq

/-- calculate_box_particles of sph_geo_generate.py lines 54-84: cell-centre
coordinates in X->Y->Z order and the uniform particle mass
(total volume * density) / particle count.  Python raises
ZeroDivisionError on a zero count; the embedding is only quoted under
positive counts. -/
def calculate_box_particles (cfg : BoxCfg) : List (ℚ × ℚ × ℚ) × ℚ :=
  if cfg.enable then
    ((List.range cfg.num_x).flatMap fun i =>
      (List.range cfg.num_y).flatMap fun j =>
        (List.range cfg.num_z).map fun k =>
          (cfg.x_min + (i + 1/2) * ((cfg.x_max - cfg.x_min) / cfg.num_x),
           cfg.y_min + (j + 1/2) * ((cfg.y_max - cfg.y_min) / cfg.num_y),
           cfg.z_min + (k + 1/2) * ((cfg.z_max - cfg.z_min) / cfg.num_z)),
     (cfg.x_max - cfg.x_min) * (cfg.y_max - cfg.y_min)
        * (cfg.z_max - cfg.z_min) * cfg.density
        / (cfg.num_x * cfg.num_y * cfg.num_z))
  else ([], 0)

/-- calculate_sphere_particles of sph_geo_generate.py lines 86-122: the
masked bounding-cube sampling (the loop shared with
sph_sphere_generate.py) and the uniform mass density * dx * dy * dz. -/
def calculate_sphere_particles (cfg : SphereCfg) : List (ℚ × ℚ × ℚ) × ℚ :=
  if cfg.enable then
    (sphSphereCoords cfg.cx cfg.cy cfg.cz cfg.radius cfg.num_x cfg.num_y
        cfg.num_z,
     cfg.density * (2 * cfg.radius / cfg.num_x * (2 * cfg.radius / cfg.num_y)
        * (2 * cfg.radius / cfg.num_z)))
  else ([], 0)

/-- The ID-overlap check of main (sph_geo_generate.py lines 139-144): when
both regions are enabled, warn iff box start_nid < sphere end nid and
sphere start_nid < box end nid.  Only node IDs are inspected. -/
def mainCheck (b : BoxCfg) (s : SphereCfg) : Bool :=
  b.enable && s.enable
    && (decide (b.start_nid
          < s.start_nid + ((calculate_sphere_particles s).1.length : ℤ))
      && decide (s.start_nid
          < b.start_nid + ((calculate_box_particles b).1.length : ℤ)))

/-- The document written by main (sph_geo_generate.py lines 147-190):
*KEYWORD, then *NODE with box records before sphere records, then
*ELEMENT_SPH likewise, then *END; node and element counters start at each
region's configured offsets.  The write happens regardless of the outcome
of the overlap check. -/
def mainLines (b : BoxCfg) (s : SphereCfg) : List Line :=
  [Line.marker "*KEYWORD", Line.marker "*NODE"]
    ++ (if b.enable then nodeLines b.start_nid (calculate_box_particles b).1
        else [])
    ++ (if s.enable then
          nodeLines s.start_nid (calculate_sphere_particles s).1
        else [])
    ++ [Line.marker "*ELEMENT_SPH"]
    ++ (if b.enable then
          esphLoop b.start_eid b.start_nid b.part_id
            (calculate_box_particles b).2 (calculate_box_particles b).1
        else [])
    ++ (if s.enable then
          esphLoop s.start_eid s.start_nid s.part_id
            (calculate_sphere_particles s).2 (calculate_sphere_particles s).1
        else [])
    ++ [Line.marker "*END"]

lemma nodeLines_length (nid : ℤ) (l : List (ℚ × ℚ × ℚ)) :
    (nodeLines nid l).length = l.length := by
  induction l generalizing nid with
  | nil => rfl
  | cons c rest ih => simp [nodeLines, ih]

lemma esphLoop_length {α : Type} (eid nid pid : ℤ) (m : ℚ) (l : List α) :
    (esphLoop eid nid pid m l).length = l.length := by
  induction l generalizing eid nid with
  | nil => rfl
  | cons a rest ih => simp [esphLoop, ih]

/-- Concrete configurations exhibiting an element-ID collision that the
check does not flag: node ranges [100,101) and [200,201) are disjoint,
element ranges are both [1,2). -/
def boxCfgX : BoxCfg := ⟨true, 0, 1, 0, 1, 0, 1, 1, 1, 1, 1, 7, 100, 1⟩

def sphereCfgX : SphereCfg := ⟨true, 0, 0, 0, 1, 1, 1, 1, 1, 8, 200, 1⟩

lemma boxCfgX_coords : (calculate_box_particles boxCfgX).1 = [(1/2, 1/2, 1/2)] := by
  norm_num [calculate_box_particles, boxCfgX, List.range_succ,
    List.flatMap_cons, List.flatMap_nil]

lemma sphereCfgX_coords :
    (calculate_sphere_particles sphereCfgX).1 = [(0, 0, 0)] := by
  norm_num [calculate_sphere_particles, sphereCfgX, sphSphereCoords,
    List.range_succ, List.flatMap_cons, List.flatMap_nil,
    List.filterMap_cons, List.filterMap_nil]

/-- C6 counterexample.  The element-ID ranges of the two regions coincide
([1,2) each, witnessed by the shared ID 1), yet the composer's check does
not flag anything: the check never inspects the element-ID namespace, so
the claim that it is performed independently for both namespaces fails. -/
theorem composer_check_ignores_element_ids :
    mainCheck boxCfgX sphereCfgX = false ∧
      (boxCfgX.start_eid ≤ 1 ∧
        (1 : ℤ) < boxCfgX.start_eid
          + ((calculate_box_particles boxCfgX).1.length : ℤ)) ∧
      (sphereCfgX.start_eid ≤ 1 ∧
        (1 : ℤ) < sphereCfgX.start_eid
          + ((calculate_sphere_particles sphereCfgX).1.length : ℤ)) := by
  rw [mainCheck, boxCfgX_coords, sphereCfgX_coords]
  norm_num [boxCfgX, sphereCfgX]

/-- C6 as amended.  For enabled, nonempty regions the check flags iff the
half-open node-ID ranges intersect; only the node-ID namespace is
inspected (see the counterexample); and the check is non-fatal: the full
document, with all 4 markers and every node and element record, is
produced whatever the check's outcome. -/
theorem composer_overlap_check_amended (b : BoxCfg) (s : SphereCfg)
    (hb : b.enable = true) (hs : s.enable = true)
    (hbn : 0 < (calculate_box_particles b).1.length)
    (hsn : 0 < (calculate_sphere_particles s).1.length) :
    (mainCheck b s = true ↔
      ∃ t : ℤ,
        (b.start_nid ≤ t ∧
          t < b.start_nid + ((calculate_box_particles b).1.length : ℤ)) ∧
        (s.start_nid ≤ t ∧
          t < s.start_nid + ((calculate_sphere_particles s).1.length : ℤ))) ∧
      (mainLines b s).length
        = 4 + 2 * ((calculate_box_particles b).1.length
            + (calculate_sphere_particles s).1.length) := by
  constructor
  · rw [mainCheck, hb, hs]
    simp only [Bool.true_and, Bool.and_eq_true, decide_eq_true_eq]
    constructor
    · rintro ⟨h1, h2⟩
      rcases le_total b.start_nid s.start_nid with hle | hle
      · exact ⟨s.start_nid, ⟨hle, by omega⟩, ⟨le_refl _, by omega⟩⟩
      · exact ⟨b.start_nid, ⟨le_refl _, by omega⟩, ⟨hle, by omega⟩⟩
    · rintro ⟨t, ⟨hb1, hb2⟩, ⟨hs1, hs2⟩⟩
      omega
  · rw [mainLines, hb, hs]
    simp [List.length_append, nodeLines_length, esphLoop_length]
    ring

/-- A sphere configuration whose node range [100,101) collides with a box
node range starting at 100. -/
def sphereCfgY : SphereCfg := ⟨true, 0, 0, 0, 1, 1, 1, 1, 1, 8, 100, 1⟩

lemma sphereCfgY_coords :
    (calculate_sphere_particles sphereCfgY).1 = [(0, 0, 0)] := by
  norm_num [calculate_sphere_particles, sphereCfgY, sphSphereCoords,
    List.range_succ, List.flatMap_cons, List.flatMap_nil,
    List.filterMap_cons, List.filterMap_nil]

/-- A box configuration with node range [100,101). -/
def boxCfgY : BoxCfg := ⟨true, 0, 1, 0, 1, 0, 1, 1, 1, 1, 1, 7, 100, 1⟩

lemma boxCfgY_coords : (calculate_box_particles boxCfgY).1 = [(1/2, 1/2, 1/2)] := by
  norm_num [calculate_box_particles, boxCfgY, List.range_succ,
    List.flatMap_cons, List.flatMap_nil]

/-- Witness for the amended C6 at configurations whose node ranges do
overlap ([100,101) twice). -/
theorem composer_overlap_check_amended_witness :
    ((mainCheck boxCfgY sphereCfgY = true ↔
      ∃ t : ℤ,
        (boxCfgY.start_nid ≤ t ∧
          t < boxCfgY.start_nid
            + ((calculate_box_particles boxCfgY).1.length : ℤ)) ∧
        (sphereCfgY.start_nid ≤ t ∧
          t < sphereCfgY.start_nid
            + ((calculate_sphere_particles sphereCfgY).1.length : ℤ))) ∧
      (mainLines boxCfgY sphereCfgY).length
        = 4 + 2 * ((calculate_box_particles boxCfgY).1.length
            + (calculate_sphere_particles sphereCfgY).1.length)) :=
  composer_overlap_check_amended boxCfgY sphereCfgY rfl rfl
    (by rw [boxCfgY_coords]; norm_num) (by rw [sphereCfgY_coords]; norm_num)

/-- Decimal digits of a natural number, most significant first, via a fuel
parameter so the definition is structurally recursive. -/
def natDigitsFuel : ℕ → ℕ → List Char
  | 0, _ => []
  | fuel + 1, n =>
    if n < 10 then [Char.ofNat (48 + n)]
    else natDigitsFuel fuel (n / 10) ++ [Char.ofNat (48 + n % 10)]

/-- Decimal digit string of a natural number, as Python str renders it. -/
def natToDigits (n : ℕ) : List Char :=
  natDigitsFuel (n + 1) n

lemma natDigitsFuel_length_le (fuel : ℕ) :
    ∀ k n, 0 < k → n < 10 ^ k → n < fuel →
      (natDigitsFuel fuel n).length ≤ k := by
  induction fuel with
  | zero => intro k n _ _ h; omega
  | succ f ih =>
    intro k n hk hnk hnf
    rw [natDigitsFuel]
    by_cases h10 : n < 10
    · rw [if_pos h10]
      simpa using hk
    · rw [if_neg h10]
      rw [List.length_append]
      have hk2 : 2 ≤ k := by
        by_contra hlt
        have hk1 : k = 1 := by omega
        rw [hk1] at hnk
        norm_num at hnk
        omega
      have hdiv : n / 10 < 10 ^ (k - 1) := by
        have hpow : 10 ^ (k - 1) * 10 = 10 ^ k := by
          have hke : k = k - 1 + 1 := by omega
          calc 10 ^ (k - 1) * 10 = 10 ^ (k - 1 + 1) := (pow_succ 10 (k - 1)).symm
            _ = 10 ^ k := by rw [← hke]
        omega
      have hfuel : n / 10 < f := by omega
      have := ih (k - 1) (n / 10) (by omega) hdiv hfuel
      simp only [List.length_cons, List.length_nil]
      omega

lemma natToDigits_length_le (k n : ℕ) (hk : 0 < k) (h : n < 10 ^ k) :
    (natToDigits n).length ≤ k :=
  natDigitsFuel_length_le (n + 1) k n hk h (Nat.lt_succ_self n)

/-- Python str of an int: optional minus sign, then decimal digits. -/
def intStr (n : ℤ) : String :=
  if n < 0 then String.mk ('-' :: natToDigits n.natAbs)
  else String.mk (natToDigits n.natAbs)

/-- Right-justification to a field width, as Python format specs
{:wd}, {:w.6f}, {:w.6e} pad with spaces on the left (a value longer than
the field is written in full). -/
def padLeft (w : ℕ) (s : String) : String :=
  String.mk (List.replicate (w - s.length) ' ') ++ s

lemma padLeft_length (w : ℕ) (s : String) (h : s.length ≤ w) :
    (padLeft w s).length = w := by
  rw [padLeft, String.length_append]
  have hmk : (String.mk (List.replicate (w - s.length) ' ')).length
      = w - s.length := by
    show (List.replicate (w - s.length) ' ').length = w - s.length
    simp
  omega

lemma padLeft_length_of_ge (w : ℕ) (s : String) (h : w ≤ s.length) :
    (padLeft w s).length = s.length := by
  rw [padLeft, String.length_append]
  have hmk : (String.mk (List.replicate (w - s.length) ' ')).length
      = w - s.length := by
    show (List.replicate (w - s.length) ' ').length = w - s.length
    simp
  omega

/-- Python format {:wd}: the integer right-justified in w characters. -/
def formatInt (w : ℕ) (n : ℤ) : String :=
  padLeft w (intStr n)

lemma intStr_length_nonneg_le (n : ℤ) (k : ℕ) (hk : 0 < k) (h0 : 0 ≤ n)
    (h : n < 10 ^ k) : (intStr n).length ≤ k := by
  rw [intStr, if_neg (by omega)]
  show (natToDigits n.natAbs).length ≤ k
  refine natToDigits_length_le k n.natAbs hk ?_
  have hcast : (n.natAbs : ℤ) = n := Int.natAbs_of_nonneg h0
  have hpow : ((10 ^ k : ℕ) : ℤ) = 10 ^ k := by push_cast; rfl
  omega

lemma formatInt_length (w : ℕ) (n : ℤ) (hw : 0 < w) (h0 : 0 ≤ n)
    (h : n < 10 ^ w) : (formatInt w n).length = w :=
  padLeft_length w (intStr n) (intStr_length_nonneg_le n w hw h0 h)

/-- Round half to even, the rounding IEEE doubles and hence Python's
float formatting apply. -/
def rhe (q : ℚ) : ℤ :=
  if q - ⌊q⌋ < 1/2 then ⌊q⌋
  else if 1/2 < q - ⌊q⌋ then ⌊q⌋ + 1
  else if ⌊q⌋ % 2 = 0 then ⌊q⌋ else ⌊q⌋ + 1

/-- Left zero-padding for fraction and exponent digit groups. -/
def zeroPadLeft (d : ℕ) (l : List Char) : List Char :=
  List.replicate (d - l.length) '0' ++ l

lemma zeroPadLeft_length (d : ℕ) (l : List Char) (h : l.length ≤ d) :
    (zeroPadLeft d l).length = d := by
  rw [zeroPadLeft, List.length_append, List.length_replicate]
  omega

/-- Python format {:w.6f}: fixed-point with 6 decimals, right-justified. -/
def formatFixed (w : ℕ) (q : ℚ) : String :=
  padLeft w (String.mk ((if q < 0 then ['-'] else [])
    ++ natToDigits ((rhe (|q| * 1000000)).toNat / 1000000)
    ++ '.' :: zeroPadLeft 6 (natToDigits ((rhe (|q| * 1000000)).toNat % 1000000))))

lemma formatFixed16_length (q : ℚ)
    (h : (rhe (|q| * 1000000)).toNat < 10 ^ 14) :
    (formatFixed 16 q).length = 16 := by
  rw [formatFixed]
  refine padLeft_length 16 _ ?_
  show ((if q < 0 then ['-'] else [])
      ++ natToDigits ((rhe (|q| * 1000000)).toNat / 1000000)
      ++ '.' :: zeroPadLeft 6 (natToDigits
        ((rhe (|q| * 1000000)).toNat % 1000000))).length ≤ 16
  rw [List.length_append, List.length_append, List.length_cons]
  have hsign : (if q < 0 then ['-'] else []).length ≤ 1 := by
    by_cases hq : q < 0 <;> simp [hq]
  have hip : (natToDigits ((rhe (|q| * 1000000)).toNat / 1000000)).length ≤ 8 := by
    refine natToDigits_length_le 8 _ (by norm_num) ?_
    have := Nat.div_lt_iff_lt_mul (show 0 < 1000000 by norm_num)
      |>.mpr (show (rhe (|q| * 1000000)).toNat < 10 ^ 8 * 1000000 by omega)
    omega
  have hfrac : (zeroPadLeft 6 (natToDigits
      ((rhe (|q| * 1000000)).toNat % 1000000))).length = 6 := by
    refine zeroPadLeft_length 6 _ ?_
    refine natToDigits_length_le 6 _ (by norm_num) ?_
    have := Nat.mod_lt (rhe (|q| * 1000000)).toNat
      (show 0 < 1000000 by norm_num)
    omega
  omega

/-- Decimal exponent of a positive rational, computed from the digit
lengths of numerator and denominator, corrected by one comparison. -/
def expQ (q : ℚ) : ℤ :=
  if (10 : ℚ) ^ (((natToDigits q.num.natAbs).length : ℤ)
      - ((natToDigits q.den).length : ℤ)) ≤ q then
    ((natToDigits q.num.natAbs).length : ℤ) - ((natToDigits q.den).length : ℤ)
  else ((natToDigits q.num.natAbs).length : ℤ)
    - ((natToDigits q.den).length : ℤ) - 1

/-- Exponent and 7-digit scaled mantissa of Python scientific notation,
with the carry case (mantissa rounding up to 10.000000) bumping the
exponent. -/
def sciParts (q : ℚ) : ℤ × ℕ :=
  if q = 0 then (0, 0)
  else
    if (rhe (|q| / 10 ^ expQ |q| * 1000000)).toNat = 10000000 then
      (expQ |q| + 1, 1000000)
    else (expQ |q|, (rhe (|q| / 10 ^ expQ |q| * 1000000)).toNat)

/-- Python format {:w.6e}: scientific with 6 decimals, a signed two-digit
exponent, right-justified. -/
def formatSci (w : ℕ) (q : ℚ) : String :=
  padLeft w (String.mk ((if q < 0 then ['-'] else [])
    ++ natToDigits ((sciParts q).2 / 1000000)
    ++ '.' :: (zeroPadLeft 6 (natToDigits ((sciParts q).2 % 1000000))
    ++ 'e' :: (if (sciParts q).1 < 0 then '-' else '+')
      :: zeroPadLeft 2 (natToDigits (sciParts q).1.natAbs))))

lemma formatSci16_length (q : ℚ) (hm : (sciParts q).2 < 10 ^ 10)
    (he : (sciParts q).1.natAbs < 100) :
    (formatSci 16 q).length = 16 := by
  rw [formatSci]
  refine padLeft_length 16 _ ?_
  show ((if q < 0 then ['-'] else [])
      ++ natToDigits ((sciParts q).2 / 1000000)
      ++ '.' :: (zeroPadLeft 6 (natToDigits ((sciParts q).2 % 1000000))
      ++ 'e' :: (if (sciParts q).1 < 0 then '-' else '+')
        :: zeroPadLeft 2 (natToDigits (sciParts q).1.natAbs))).length ≤ 16
  simp only [List.length_append, List.length_cons]
  have hsign : (if q < 0 then ['-'] else []).length ≤ 1 := by
    by_cases hq : q < 0 <;> simp [hq]
  have hip : (natToDigits ((sciParts q).2 / 1000000)).length ≤ 4 := by
    refine natToDigits_length_le 4 _ (by norm_num) ?_
    have := Nat.div_lt_iff_lt_mul (show 0 < 1000000 by norm_num)
      |>.mpr (show (sciParts q).2 < 10 ^ 4 * 1000000 by omega)
    omega
  have hfrac : (zeroPadLeft 6 (natToDigits ((sciParts q).2 % 1000000))).length
      = 6 := by
    refine zeroPadLeft_length 6 _ ?_
    refine natToDigits_length_le 6 _ (by norm_num) ?_
    have := Nat.mod_lt (sciParts q).2 (show 0 < 1000000 by norm_num)
    omega
  have hexp : (zeroPadLeft 2 (natToDigits (sciParts q).1.natAbs)).length
      = 2 := by
    refine zeroPadLeft_length 2 _ ?_
    exact natToDigits_length_le 2 _ (by norm_num) (by omega)
  omega

/-- Rendering of one record into its fixed-column text line, following the
f-strings of the Python scripts: node records are {:8d}{:16.6f}{:16.6f}
{:16.6f}, SPH element records {:8d}{:8d}{:8d}{:16.6e}, solid element
records ten {:8d} fields. -/
def render : Line → String
  | .marker s => s
  | .node nid x y z =>
      formatInt 8 nid ++ formatFixed 16 x ++ formatFixed 16 y
        ++ formatFixed 16 z
  | .esph eid pid nid m =>
      formatInt 8 eid ++ formatInt 8 pid ++ formatInt 8 nid ++ formatSci 16 m
  | .esolid eid pid a b c d e f g h =>
      formatInt 8 eid ++ formatInt 8 pid ++ formatInt 8 a ++ formatInt 8 b
        ++ formatInt 8 c ++ formatInt 8 d ++ formatInt 8 e ++ formatInt 8 f
        ++ formatInt 8 g ++ formatInt 8 h

/-- A record whose fields fit their columns: integer IDs below 10^8 and
nonnegative, fixed floats whose scaled magnitude keeps the integer part
within 8 digits, scientific mass with a two-digit exponent. -/
def lineFits : Line → Prop
  | .marker _ => True
  | .node nid x y z =>
      0 ≤ nid ∧ nid < 10 ^ 8
        ∧ (rhe (|x| * 1000000)).toNat < 10 ^ 14
        ∧ (rhe (|y| * 1000000)).toNat < 10 ^ 14
        ∧ (rhe (|z| * 1000000)).toNat < 10 ^ 14
  | .esph eid pid nid m =>
      0 ≤ eid ∧ eid < 10 ^ 8 ∧ 0 ≤ pid ∧ pid < 10 ^ 8
        ∧ 0 ≤ nid ∧ nid < 10 ^ 8
        ∧ (sciParts m).2 < 10 ^ 10 ∧ (sciParts m).1.natAbs < 100
  | .esolid eid pid a b c d e f g h =>
      0 ≤ eid ∧ eid < 10 ^ 8 ∧ 0 ≤ pid ∧ pid < 10 ^ 8
        ∧ (0 ≤ a ∧ a < 10 ^ 8) ∧ (0 ≤ b ∧ b < 10 ^ 8)
        ∧ (0 ≤ c ∧ c < 10 ^ 8) ∧ (0 ≤ d ∧ d < 10 ^ 8)
        ∧ (0 ≤ e ∧ e < 10 ^ 8) ∧ (0 ≤ f ∧ f < 10 ^ 8)
        ∧ (0 ≤ g ∧ g < 10 ^ 8) ∧ (0 ≤ h ∧ h < 10 ^ 8)

/-- The fixed width of each record kind: 8+16+16+16 for nodes,
8+8+8+16 for SPH elements, ten times 8 for solid elements. -/
def expectedWidth : Line → ℕ
  | .marker s => s.length
  | .node _ _ _ _ => 56
  | .esph _ _ _ _ => 40
  | .esolid _ _ _ _ _ _ _ _ _ _ => 80

lemma render_length_of_fits (l : Line) (h : lineFits l) :
    (render l).length = expectedWidth l := by
  cases l with
  | marker s => rfl
  | node nid x y z =>
    obtain ⟨h1, h2, h3, h4, h5⟩ := h
    simp only [render, expectedWidth, String.length_append]
    rw [formatInt_length 8 nid (by norm_num) h1 h2,
      formatFixed16_length x h3, formatFixed16_length y h4,
      formatFixed16_length z h5]
  | esph eid pid nid m =>
    obtain ⟨h1, h2, h3, h4, h5, h6, h7, h8⟩ := h
    simp only [render, expectedWidth, String.length_append]
    rw [formatInt_length 8 eid (by norm_num) h1 h2,
      formatInt_length 8 pid (by norm_num) h3 h4,
      formatInt_length 8 nid (by norm_num) h5 h6,
      formatSci16_length m h7 h8]
  | esolid eid pid a b c d e f g h =>
    obtain ⟨h1, h2, h3, h4, ⟨ha1, ha2⟩, ⟨hb1, hb2⟩, ⟨hc1, hc2⟩, ⟨hd1, hd2⟩,
      ⟨he1, he2⟩, ⟨hf1, hf2⟩, ⟨hg1, hg2⟩, ⟨hh1, hh2⟩⟩ := h
    simp only [render, expectedWidth, String.length_append]
    rw [formatInt_length 8 eid (by norm_num) h1 h2,
      formatInt_length 8 pid (by norm_num) h3 h4,
      formatInt_length 8 a (by norm_num) ha1 ha2,
      formatInt_length 8 b (by norm_num) hb1 hb2,
      formatInt_length 8 c (by norm_num) hc1 hc2,
      formatInt_length 8 d (by norm_num) hd1 hd2,
      formatInt_length 8 e (by norm_num) he1 he2,
      formatInt_length 8 f (by norm_num) hf1 hf2,
      formatInt_length 8 g (by norm_num) hg1 hg2,
      formatInt_length 8 h (by norm_num) hh1 hh2]

lemma rhe_intCast (n : ℤ) : rhe ((n : ℚ)) = n := by
  simp [rhe, Int.floor_intCast]

/-- C8.  The generators perform no configuration validation.  Evaluating
generate_sph_box shows that a negative resolution (num_x = -1) still
produces a complete, empty-record document; degenerate extents
(x_min > x_max) produce a full document whose records carry a negative
mass; and a starting node ID of 10^9 (ten characters) is written as a
node record whose rendered line is 58 characters instead of 56, silently
breaking the fixed columns.  None of these fail fast. -/
theorem config_validation_absent :
    generate_sph_box 0 1 0 1 0 1 (-1) 1 1 1 1 1 1
        = .ok [Line.marker "*KEYWORD", Line.marker "*NODE",
            Line.marker "*ELEMENT_SPH", Line.marker "*END"] ∧
      generate_sph_box 1 0 0 1 0 1 1 1 1 2 1 1 3
        = .ok [Line.marker "*KEYWORD", Line.marker "*NODE",
            Line.node 1 (1/2) (1/2) (1/2),
            Line.marker "*ELEMENT_SPH", Line.esph 1 3 1 (-2),
            Line.marker "*END"] ∧
      generate_sph_box 0 1 0 1 0 1 1 1 1 1 1000000000 1 1
        = .ok [Line.marker "*KEYWORD", Line.marker "*NODE",
            Line.node 1000000000 (1/2) (1/2) (1/2),
            Line.marker "*ELEMENT_SPH", Line.esph 1 1 1000000000 1,
            Line.marker "*END"] ∧
      (render (Line.node 1000000000 (1/2) (1/2) (1/2))).length = 58 := by
  refine ⟨?_, ?_, ?_, ?_⟩
  · rw [generate_sph_box_ok 0 1 0 1 0 1 (-1) 1 1 1 1 1 1 (by norm_num)
      (by norm_num) (by norm_num)]
    rfl
  · rw [generate_sph_box_ok 1 0 0 1 0 1 1 1 1 2 1 1 3 (by norm_num)
      (by norm_num) (by norm_num)]
    norm_num [sphBoxDoc, pyRange, nodeLines, esphLoop, List.range_succ,
      List.flatMap_cons, List.flatMap_nil]
  · rw [generate_sph_box_ok 0 1 0 1 0 1 1 1 1 1 1000000000 1 1 (by norm_num)
      (by norm_num) (by norm_num)]
    norm_num [sphBoxDoc, pyRange, nodeLines, esphLoop, List.range_succ,
      List.flatMap_cons, List.flatMap_nil]
  · have hhalf : (|(1/2 : ℚ)| * 1000000) = ((500000 : ℤ) : ℚ) := by
      rw [abs_of_nonneg (by norm_num : (0:ℚ) ≤ 1/2)]
      norm_num
    have hrhe : rhe (|(1/2 : ℚ)| * 1000000) = 500000 := by
      rw [hhalf, rhe_intCast]
    have hfx : (formatFixed 16 (1/2 : ℚ)).length = 16 := by
      refine formatFixed16_length (1/2) ?_
      rw [hrhe]
      norm_num
    have hint : (formatInt 8 (1000000000 : ℤ)).length = 10 := by
      have hstr : (intStr (1000000000 : ℤ)).length = 10 := by decide
      rw [formatInt, padLeft_length_of_ge 8 _ (by rw [hstr]; norm_num), hstr]
    simp only [render, String.length_append, hfx, hint]

/-- Node ID carried by a *NODE record. -/
def nodeIdOfLine : Line → Option ℤ
  | .node nid _ _ _ => some nid
  | _ => none

/-- Element ID carried by an *ELEMENT_SPH record. -/
def esphIdOfLine : Line → Option ℤ
  | .esph eid _ _ _ => some eid
  | _ => none

lemma range_succ_map_int (s : ℤ) (n : ℕ) :
    (List.range (n + 1)).map (fun t : ℕ => s + (t : ℤ))
      = s :: (List.range n).map (fun t : ℕ => s + 1 + (t : ℤ)) := by
  rw [List.range_succ_eq_map]
  simp only [List.map_cons, Nat.cast_zero, add_zero, List.map_map]
  have hfun : ((fun t : ℕ => s + (t : ℤ)) ∘ Nat.succ)
      = (fun t : ℕ => s + 1 + (t : ℤ)) := by
    funext t
    simp only [Function.comp_apply]
    push_cast
    ring
  rw [hfun]

lemma nodeLines_filterMap_nodeId (s : ℤ) (l : List (ℚ × ℚ × ℚ)) :
    (nodeLines s l).filterMap nodeIdOfLine
      = (List.range l.length).map (fun t : ℕ => s + (t : ℤ)) := by
  induction l generalizing s with
  | nil => rfl
  | cons c rest ih =>
    rw [nodeLines, List.filterMap_cons]
    simp only [nodeIdOfLine]
    rw [ih (s + 1), List.length_cons, range_succ_map_int]

lemma esphLoop_filterMap_esphId {α : Type} (eid nid pid : ℤ) (m : ℚ)
    (l : List α) :
    (esphLoop eid nid pid m l).filterMap esphIdOfLine
      = (List.range l.length).map (fun t : ℕ => eid + (t : ℤ)) := by
  induction l generalizing eid nid with
  | nil => rfl
  | cons a rest ih =>
    rw [esphLoop, List.filterMap_cons]
    simp only [esphIdOfLine]
    rw [ih (eid + 1) (nid + 1), List.length_cons, range_succ_map_int]

lemma nodeLines_filterMap_esphId (s : ℤ) (l : List (ℚ × ℚ × ℚ)) :
    (nodeLines s l).filterMap esphIdOfLine = [] := by
  induction l generalizing s with
  | nil => rfl
  | cons c rest ih =>
    rw [nodeLines, List.filterMap_cons]
    simp only [esphIdOfLine]
    exact ih (s + 1)

lemma esphLoop_filterMap_nodeId {α : Type} (eid nid pid : ℤ) (m : ℚ)
    (l : List α) :
    (esphLoop eid nid pid m l).filterMap nodeIdOfLine = [] := by
  induction l generalizing eid nid with
  | nil => rfl
  | cons a rest ih =>
    rw [esphLoop, List.filterMap_cons]
    simp only [nodeIdOfLine]
    exact ih (eid + 1) (nid + 1)

/-- C9.  The composed document is exactly *KEYWORD, *NODE with all node
records, *ELEMENT_SPH with all element records, *END; node records and
element records each list the box region before the sphere region
(declaration order) with IDs ascending from each region's configured
start, written as-is with no sorting or deduplication (the ID progressions
are emitted even when the two regions' ranges overlap); and every record
whose fields fit renders at its fixed width: nodes 8+16+16+16 = 56
characters with 6-decimal fixed floats, SPH elements 8+8+8+16 = 40 with a
6-decimal scientific mass, solid elements ten 8-wide integers = 80. -/
theorem serializer_structure_order_widths (b : BoxCfg) (s : SphereCfg)
    (hb : b.enable = true) (hs : s.enable = true)
    (hfit : ∀ l ∈ mainLines b s, lineFits l) :
    mainLines b s
        = [Line.marker "*KEYWORD", Line.marker "*NODE"]
          ++ nodeLines b.start_nid (calculate_box_particles b).1
          ++ nodeLines s.start_nid (calculate_sphere_particles s).1
          ++ [Line.marker "*ELEMENT_SPH"]
          ++ esphLoop b.start_eid b.start_nid b.part_id
              (calculate_box_particles b).2 (calculate_box_particles b).1
          ++ esphLoop s.start_eid s.start_nid s.part_id
              (calculate_sphere_particles s).2 (calculate_sphere_particles s).1
          ++ [Line.marker "*END"] ∧
      (mainLines b s).filterMap nodeIdOfLine
        = ((List.range (calculate_box_particles b).1.length).map
              (fun t : ℕ => b.start_nid + (t : ℤ)))
          ++ ((List.range (calculate_sphere_particles s).1.length).map
              (fun t : ℕ => s.start_nid + (t : ℤ))) ∧
      (mainLines b s).filterMap esphIdOfLine
        = ((List.range (calculate_box_particles b).1.length).map
              (fun t : ℕ => b.start_eid + (t : ℤ)))
          ++ ((List.range (calculate_sphere_particles s).1.length).map
              (fun t : ℕ => s.start_eid + (t : ℤ))) ∧
      ∀ l ∈ mainLines b s, (render l).length = expectedWidth l := by
  have hstruct : mainLines b s
      = [Line.marker "*KEYWORD", Line.marker "*NODE"]
        ++ nodeLines b.start_nid (calculate_box_particles b).1
        ++ nodeLines s.start_nid (calculate_sphere_particles s).1
        ++ [Line.marker "*ELEMENT_SPH"]
        ++ esphLoop b.start_eid b.start_nid b.part_id
            (calculate_box_particles b).2 (calculate_box_particles b).1
        ++ esphLoop s.start_eid s.start_nid s.part_id
            (calculate_sphere_particles s).2 (calculate_sphere_particles s).1
        ++ [Line.marker "*END"] := by
    rw [mainLines, hb, hs]
    simp
  refine ⟨hstruct, ?_, ?_, ?_⟩
  · rw [hstruct]
    simp only [List.filterMap_append, nodeLines_filterMap_nodeId,
      esphLoop_filterMap_nodeId, List.filterMap_cons, List.filterMap_nil,
      nodeIdOfLine, List.nil_append, List.append_nil]
  · rw [hstruct]
    simp only [List.filterMap_append, nodeLines_filterMap_esphId,
      esphLoop_filterMap_esphId, List.filterMap_cons, List.filterMap_nil,
      esphIdOfLine, List.nil_append, List.append_nil]
  · intro l hl
    exact render_length_of_fits l (hfit l hl)

lemma boxCfgY_mass : (calculate_box_particles boxCfgY).2 = 1 := by
  norm_num [calculate_box_particles, boxCfgY]

lemma sphereCfgY_mass : (calculate_sphere_particles sphereCfgY).2 = 8 := by
  norm_num [calculate_sphere_particles, sphereCfgY]

lemma expQ_one : expQ 1 = 0 := by
  have h1 : ((1 : ℚ).num.natAbs) = 1 := rfl
  have h2 : ((1 : ℚ).den) = 1 := rfl
  have h3 : (natToDigits 1).length = 1 := rfl
  simp only [expQ, h1, h2, h3]
  norm_num

lemma expQ_eight : expQ 8 = 0 := by
  have h1 : ((8 : ℚ).num.natAbs) = 8 := rfl
  have h2 : ((8 : ℚ).den) = 1 := rfl
  have h3 : (natToDigits 8).length = 1 := rfl
  have h4 : (natToDigits 1).length = 1 := rfl
  simp only [expQ, h1, h2, h3, h4]
  norm_num

lemma rhe_eq_of_eq_intCast (q : ℚ) (n : ℤ) (h : q = (n : ℚ)) : rhe q = n := by
  rw [h, rhe_intCast]

lemma sciParts_one : sciParts 1 = (0, 1000000) := by
  have hrhe : rhe ((1 : ℚ) / 10 ^ (0 : ℤ) * 1000000) = (1000000 : ℤ) :=
    rhe_eq_of_eq_intCast _ 1000000 (by norm_num)
  simp only [sciParts, abs_one, expQ_one, hrhe]
  decide

lemma sciParts_eight : sciParts 8 = (0, 8000000) := by
  have habs : |(8 : ℚ)| = 8 := by
    rw [abs_of_nonneg]
    norm_num
  have hrhe : rhe ((8 : ℚ) / 10 ^ (0 : ℤ) * 1000000) = (8000000 : ℤ) :=
    rhe_eq_of_eq_intCast _ 8000000 (by norm_num)
  simp only [sciParts, habs, expQ_eight, hrhe]
  decide

lemma rhe_half_scaled : rhe (|(1/2 : ℚ)| * 1000000) = 500000 := by
  have hhalf : (|(1/2 : ℚ)| * 1000000) = ((500000 : ℤ) : ℚ) := by
    rw [abs_of_nonneg (by norm_num : (0:ℚ) ≤ 1/2)]
    norm_num
  rw [hhalf, rhe_intCast]

lemma rhe_zero_scaled : rhe (|(0 : ℚ)| * 1000000) = 0 := by
  have hz : (|(0 : ℚ)| * 1000000) = ((0 : ℤ) : ℚ) := by
    rw [abs_zero]
    norm_num
  rw [hz, rhe_intCast]

/-- Witness for C9 at two one-particle regions whose node-ID ranges even
coincide (both starting at 100), exercising the written-as-is behaviour. -/
theorem serializer_structure_order_widths_witness :
    (mainLines boxCfgY sphereCfgY
        = [Line.marker "*KEYWORD", Line.marker "*NODE"]
          ++ nodeLines boxCfgY.start_nid (calculate_box_particles boxCfgY).1
          ++ nodeLines sphereCfgY.start_nid
              (calculate_sphere_particles sphereCfgY).1
          ++ [Line.marker "*ELEMENT_SPH"]
          ++ esphLoop boxCfgY.start_eid boxCfgY.start_nid boxCfgY.part_id
              (calculate_box_particles boxCfgY).2
              (calculate_box_particles boxCfgY).1
          ++ esphLoop sphereCfgY.start_eid sphereCfgY.start_nid
              sphereCfgY.part_id (calculate_sphere_particles sphereCfgY).2
              (calculate_sphere_particles sphereCfgY).1
          ++ [Line.marker "*END"] ∧
      (mainLines boxCfgY sphereCfgY).filterMap nodeIdOfLine
        = ((List.range (calculate_box_particles boxCfgY).1.length).map
              (fun t : ℕ => boxCfgY.start_nid + (t : ℤ)))
          ++ ((List.range
                (calculate_sphere_particles sphereCfgY).1.length).map
              (fun t : ℕ => sphereCfgY.start_nid + (t : ℤ))) ∧
      (mainLines boxCfgY sphereCfgY).filterMap esphIdOfLine
        = ((List.range (calculate_box_particles boxCfgY).1.length).map
              (fun t : ℕ => boxCfgY.start_eid + (t : ℤ)))
          ++ ((List.range
                (calculate_sphere_particles sphereCfgY).1.length).map
              (fun t : ℕ => sphereCfgY.start_eid + (t : ℤ))) ∧
      ∀ l ∈ mainLines boxCfgY sphereCfgY,
        (render l).length = expectedWidth l) := by
  refine serializer_structure_order_widths boxCfgY sphereCfgY rfl rfl ?_
  have hmain : mainLines boxCfgY sphereCfgY
      = [Line.marker "*KEYWORD", Line.marker "*NODE",
          Line.node 100 (1/2) (1/2) (1/2), Line.node 100 0 0 0,
          Line.marker "*ELEMENT_SPH", Line.esph 1 7 100 1,
          Line.esph 1 8 100 8, Line.marker "*END"] := by
    rw [mainLines, boxCfgY_coords, sphereCfgY_coords, boxCfgY_mass,
      sphereCfgY_mass]
    norm_num [boxCfgY, sphereCfgY, nodeLines, esphLoop]
  intro l hl
  rw [hmain] at hl
  simp only [List.mem_cons, List.not_mem_nil, or_false] at hl
  rcases hl with rfl | rfl | rfl | rfl | rfl | rfl | rfl | rfl
  · exact trivial
  · exact trivial
  · refine ⟨by norm_num, by norm_num, ?_, ?_, ?_⟩ <;>
      (rw [rhe_half_scaled]; norm_num)
  · refine ⟨by norm_num, by norm_num, ?_, ?_, ?_⟩ <;>
      (rw [rhe_zero_scaled]; norm_num)
  · exact trivial
  · refine ⟨by norm_num, by norm_num, by norm_num, by norm_num, by norm_num,
      by norm_num, ?_, ?_⟩ <;> (rw [sciParts_one]; norm_num)
  · refine ⟨by norm_num, by norm_num, by norm_num, by norm_num, by norm_num,
      by norm_num, ?_, ?_⟩ <;> (rw [sciParts_eight]; norm_num)
  · exact trivial

end LSDyna
